import Mathlib

/-!
Verification development for the DPTNet source-separation model
(`src/models/dptnet.py`): the dual-path transformer network `DPTNet`
(encoder / separator / decoder composition with symmetric padding) and its
`Separator` (bottleneck projection, chunking, dual-path transformer stack,
overlap-add, gated output unit, mask nonlinearity).

The file shallowly embeds the code.  Pure integer arithmetic of the source
(padding formulas, frame counts, view/reshape element counts) is embedded
over `ℕ`/`ℤ` with Python's `%` rendered as `Int.emod` (they agree for a
positive modulus).  Tensor values are embedded as lists of rationals where
element-wise facts are proved, and as real-valued index functions for the
softmax mask.  Modules of this repository that are imported by
`dptnet.py` but whose files are not part of the analysed sources
(`Segment1d`, `OverlapAdd1d`, `GTU1d`, `DualPathTransformer`,
`choose_bases`, `choose_layer_norm`) are modelled from the specification's
interface contracts; each such definition says so in its doc comment.
-/

namespace DPTNet

/-- Failure modes of construction and of the forward pass, mirroring the
Python exceptions: the `assert` statements of `DPTNet.__init__` and
`DPTNet.extract_latent`, the `ValueError` of `Separator.__init__`,
`ZeroDivisionError` of `%` with a zero modulus, and the runtime shape
errors of the underlying tensor library. -/
inductive Err where
  | channelMismatch    -- assert C_in == 1 (extract_latent, line 84)
  | zeroDivision       -- Python `%` by zero
  | kernelStrideAssert -- assert kernel_size%stride == 0 (line 25)
  | basesHeadsAssert   -- assert n_bases%sep_num_heads == 0 (line 26)
  | badMaskNonlinear   -- ValueError in Separator.__init__ (line 137)
  | segmentTooShort    -- chunking a tensor shorter than chunk_size
  | encoderTooShort    -- encoding a tensor shorter than kernel_size
  | convMismatch       -- Conv1d applied to wrong channel count
  | viewMismatch       -- .view with a non-matching element count
  deriving DecidableEq, Repr

/-- Python's `%` on integers (`a % b` for `b > 0` returns the representative
in `[0, b)`), which is `Int.emod`. -/
def pyMod (a b : ℤ) : ℤ := a % b

/-- The padding amount computed at `dptnet.py` lines 86 and 150:
`(s - (len - k) % s) % s` in Python arithmetic, as a natural number.
`len` is the current time length, `k` the window (kernel or chunk) size,
`s` the hop (stride or hop_size).  Callers guard `s ≠ 0` (Python raises
`ZeroDivisionError` there). -/
def pyPad (len k s : ℕ) : ℕ :=
  (pyMod ((s : ℤ) - pyMod ((len : ℤ) - (k : ℤ)) (s : ℤ)) (s : ℤ)).toNat

theorem pyPad_cast (len k s : ℕ) (hs : 0 < s) :
    (pyPad len k s : ℤ)
      = ((s : ℤ) - ((len : ℤ) - (k : ℤ)) % (s : ℤ)) % (s : ℤ) := by
  have hs' : (s : ℤ) ≠ 0 := Int.natCast_ne_zero.mpr hs.ne'
  have hnn : 0 ≤ ((s : ℤ) - ((len : ℤ) - (k : ℤ)) % (s : ℤ)) % (s : ℤ) :=
    Int.emod_nonneg _ hs'
  simp only [pyPad, pyMod]
  exact Int.toNat_of_nonneg hnn

/-- After padding, the length is congruent to the window size modulo the
hop: the defining property of the padding formula at lines 86–90/150–155. -/
theorem pyPad_spec (len k s : ℕ) (hs : 0 < s) :
    (((len : ℤ) + (pyPad len k s : ℤ)) - (k : ℤ)) % (s : ℤ) = 0 := by
  have em : ∀ x : ℤ, x % (s : ℤ) ≡ x [ZMOD (s : ℤ)] := fun x =>
    Int.emod_emod_of_dvd x dvd_rfl
  have key : ((len : ℤ) - (k : ℤ))
      + ((s : ℤ) - ((len : ℤ) - (k : ℤ)) % (s : ℤ)) % (s : ℤ)
      ≡ 0 [ZMOD (s : ℤ)] := by
    calc ((len : ℤ) - (k : ℤ))
        + ((s : ℤ) - ((len : ℤ) - (k : ℤ)) % (s : ℤ)) % (s : ℤ)
        ≡ ((len : ℤ) - (k : ℤ))
            + ((s : ℤ) - ((len : ℤ) - (k : ℤ)) % (s : ℤ)) [ZMOD (s : ℤ)] :=
          (Int.ModEq.refl _).add (em _)
      _ ≡ ((len : ℤ) - (k : ℤ))
            + ((s : ℤ) - ((len : ℤ) - (k : ℤ))) [ZMOD (s : ℤ)] :=
          (Int.ModEq.refl _).add ((Int.ModEq.refl (s : ℤ)).sub (em _))
      _ = (s : ℤ) := by ring
      _ ≡ 0 [ZMOD (s : ℤ)] := by
          unfold Int.ModEq
          simp
  have hgoal : ((len : ℤ) + (pyPad len k s : ℤ)) - (k : ℤ)
      = ((len : ℤ) - (k : ℤ))
          + ((s : ℤ) - ((len : ℤ) - (k : ℤ)) % (s : ℤ)) % (s : ℤ) := by
    rw [pyPad_cast len k s hs]; ring
  rw [hgoal]
  have h0 : (0 : ℤ) % (s : ℤ) = 0 := Int.zero_emod _
  calc (((len : ℤ) - (k : ℤ))
      + ((s : ℤ) - ((len : ℤ) - (k : ℤ)) % (s : ℤ)) % (s : ℤ)) % (s : ℤ)
      = (0 : ℤ) % (s : ℤ) := key
    _ = 0 := h0

/-- In the natural numbers: when the window fits the padded length, the hop
divides (padded length − window). -/
theorem pyPad_dvd (len k s : ℕ) (hs : 0 < s) (hk : k ≤ len + pyPad len k s) :
    s ∣ (len + pyPad len k s - k) := by
  have h := pyPad_spec len k s hs
  have hdvd : (s : ℤ) ∣ (((len : ℤ) + (pyPad len k s : ℤ)) - (k : ℤ)) :=
    Int.dvd_of_emod_eq_zero h
  have hcast : ((len + pyPad len k s - k : ℕ) : ℤ)
      = ((len : ℤ) + (pyPad len k s : ℤ)) - (k : ℤ) := by
    push_cast [hk]
    ring
  have : (s : ℤ) ∣ ((len + pyPad len k s - k : ℕ) : ℤ) := hcast ▸ hdvd
  exact_mod_cast this

/-- The configuration of a constructed `DPTNet` (resolved attribute values
stored by `DPTNet.__init__`, lines 29–54; `stride` and `sep_hop_size`
already resolved from their `None` defaults at lines 19–23). -/
structure Config where
  nBases : ℕ
  kernelSize : ℕ
  stride : ℕ
  sepBottleneck : ℕ
  sepChunkSize : ℕ
  sepHopSize : ℕ
  nSources : ℕ
  maskNonlinear : String
  deriving DecidableEq, Repr

/-- Inner padding of `Separator.forward` (line 150):
`(hop_size-(T_bin-chunk_size)%hop_size)%hop_size`. -/
def sepPad (cfg : Config) (tBin : ℕ) : ℕ :=
  pyPad tBin cfg.sepChunkSize cfg.sepHopSize

/-- Time length after the inner padding of `Separator.forward` (line 155). -/
def sepPaddedLen (cfg : Config) (tBin : ℕ) : ℕ := tBin + sepPad cfg tBin

/-- Number of chunks produced by the chunking step.  Modelled from the
spec: `Segment1d` is not among the analysed sources; §4.1 gives
`num_chunks = ceil((T − K)/H) + 1` for a pre-padded `T` with `(T − K)`
divisible by `H`. -/
def sepNumChunks (cfg : Config) (tBin : ℕ) : ℕ :=
  (sepPaddedLen cfg tBin - cfg.sepChunkSize) / cfg.sepHopSize + 1

/-- Time length after overlap-add (line 158).  Modelled from the spec:
`OverlapAdd1d` is not among the analysed sources; §4.1 gives output length
`(num_chunks − 1)·H + K`. -/
def sepOlaLen (cfg : Config) (tBin : ℕ) : ℕ :=
  (sepNumChunks cfg tBin - 1) * cfg.sepHopSize + cfg.sepChunkSize

/-- Time length after the negative (cropping) padding of line 159. -/
def sepUnpadLen (cfg : Config) (tBin : ℕ) : ℕ :=
  sepOlaLen cfg tBin - sepPad cfg tBin

/-- Shape semantics of `Separator.forward` (lines 139–164) on an input of
shape `(B, F, T_bin)`, returning the mask shape or the Python exception.
Steps in source order: padding arithmetic (line 150, `ZeroDivisionError`
when `hop_size = 0`), bottleneck 1×1 convolution (line 154, requires the
input channel count to equal `num_features`), pad (line 155), `Segment1d`
(line 156 — modelled from the spec: chunks are contiguous length-`K`
slices of the padded tensor, so the padded length must be at least `K`
and `K` must be positive; the underlying unfold fails otherwise),
`DualPathTransformer` (line 157, shape-preserving per §4.2),
`OverlapAdd1d` (line 158), crop (line 159), `GTU1d` (line 160, channels
`C → n_sources·num_features` per §4.3), mask nonlinearity (line 161,
shape-preserving), and `.view(batch_size, n_sources, num_features,
T_bin)` (line 162, requires a matching element count). -/
def sepForwardShape (cfg : Config) (B F tBin : ℕ) : Except Err (ℕ × ℕ × ℕ × ℕ) :=
  if cfg.sepHopSize = 0 then .error .zeroDivision
  else if F = cfg.nBases then
    if cfg.sepChunkSize = 0 then .error .segmentTooShort
    else if sepPaddedLen cfg tBin < cfg.sepChunkSize then .error .segmentTooShort
    else
      if B * (cfg.nSources * cfg.nBases) * sepUnpadLen cfg tBin
          = B * cfg.nSources * cfg.nBases * tBin then
        .ok (B, cfg.nSources, cfg.nBases, tBin)
      else .error .viewMismatch
  else .error .convMismatch

/-- Outer padding of `DPTNet.extract_latent` (line 86):
`(stride - (T-kernel_size)%stride)%stride`. -/
def encPad (cfg : Config) (T : ℕ) : ℕ := pyPad T cfg.kernelSize cfg.stride

/-- Time length after the outer padding (line 90). -/
def encPaddedLen (cfg : Config) (T : ℕ) : ℕ := T + encPad cfg T

/-- Frame count of the encoded representation.  Modelled from the spec:
`choose_bases` is external (§1); §3 gives
`frames = floor((T_padded − kernel_size)/stride) + 1`. -/
def numFrames (cfg : Config) (T : ℕ) : ℕ :=
  (encPaddedLen cfg T - cfg.kernelSize) / cfg.stride + 1

/-- Waveform length produced by the decoder from `T'` frames.  Modelled
from the spec: the decoder is the synthesis half of the Basis Transform
Pair (§1, §4.5) with window `kernel_size` and hop `stride`, so `T'` frames
synthesize `(T' − 1)·stride + kernel_size` samples. -/
def decLen (cfg : Config) (tFrames : ℕ) : ℕ :=
  (tFrames - 1) * cfg.stride + cfg.kernelSize

/-- Final output length of `extract_latent`: the decoded length cropped by
the negative padding of line 99. -/
def outLen (cfg : Config) (T : ℕ) : ℕ :=
  decLen cfg (numFrames cfg T) - encPad cfg T

/-- Shape semantics of `DPTNet.extract_latent` (lines 70–101) on an input
of shape `(B, C, T)`: returns (output shape, latent shape) or the Python
exception.  Steps in source order: the channel assert (line 84), the
padding arithmetic (line 86, `ZeroDivisionError` when `stride = 0`), pad
(line 90), encoder (line 91 — modelled from the spec as an analysis
transform `(B,1,T_padded) → (B, n_bases, T')`, requiring a positive window
no longer than the padded input), separator (line 92), mask application
and latent (lines 93–95), flatten/decode/reshape (lines 96–98, decoder
modelled from the spec), and the cropping negative pad (line 99). -/
def extractLatentShape (cfg : Config) (B C T : ℕ) :
    Except Err ((ℕ × ℕ × ℕ) × (ℕ × ℕ × ℕ × ℕ)) :=
  if C = 1 then
    if cfg.stride = 0 then .error .zeroDivision
    else if cfg.kernelSize = 0 then .error .encoderTooShort
    else if encPaddedLen cfg T < cfg.kernelSize then .error .encoderTooShort
    else
      match sepForwardShape cfg B cfg.nBases (numFrames cfg T) with
      | .error e => .error e
      | .ok latentShape =>
          .ok ((B, cfg.nSources, outLen cfg T), latentShape)
  else .error .channelMismatch

/-- Shape semantics of `DPTNet.forward` (lines 65–68): run
`extract_latent` and return only the output waveform component. -/
def forwardShape (cfg : Config) (B C T : ℕ) : Except Err (ℕ × ℕ × ℕ) :=
  (extractLatentShape cfg B C T).map Prod.fst

/-- Construction semantics of `DPTNet.__init__` (lines 16–63) restricted
to its validation and attribute resolution: resolve the `None` defaults of
`stride` (lines 19–20) and `sep_hop_size` (lines 22–23), run the two
asserts (lines 25–26 — Python raises `ZeroDivisionError` when the modulus
is zero), and construct the `Separator` (line 60), whose `__init__` checks
the mask nonlinearity name (lines 130–137) and raises `ValueError`
otherwise.  The external `choose_bases` factory (line 57) is out of scope
(§1) and modelled as always succeeding. -/
def dptnetInit (nBases kernelSize : ℕ) (stride? : Option ℕ)
    (sepBottleneck sepChunkSize : ℕ) (sepHop? : Option ℕ)
    (sepNumHeads : ℕ) (maskNonlinear : String) (nSources : ℕ) :
    Except Err Config :=
  let stride := stride?.getD (kernelSize / 2)
  let sepHop := sepHop?.getD (sepChunkSize / 2)
  if stride = 0 then .error .zeroDivision
  else if kernelSize % stride ≠ 0 then .error .kernelStrideAssert
  else if sepNumHeads = 0 then .error .zeroDivision
  else if nBases % sepNumHeads ≠ 0 then .error .basesHeadsAssert
  else if maskNonlinear = "relu" ∨ maskNonlinear = "sigmoid"
      ∨ maskNonlinear = "softmax" then
    .ok ⟨nBases, kernelSize, stride, sepBottleneck, sepChunkSize, sepHop,
      nSources, maskNonlinear⟩
  else .error .badMaskNonlinear

/-- Length restoration for a window/hop pipeline: padding to congruence,
counting windows, and resynthesizing (`(count − 1)·hop + window`) gives
back exactly the padded length. -/
theorem window_resynth_len (len k s : ℕ) (hs : 0 < s)
    (hk : k ≤ len + pyPad len k s) :
    ((len + pyPad len k s - k) / s + 1 - 1) * s + k = len + pyPad len k s := by
  have hdvd : s ∣ (len + pyPad len k s - k) := pyPad_dvd len k s hs hk
  simp only [Nat.add_sub_cancel]
  rw [Nat.div_mul_cancel hdvd]
  omega

/-- Overlap-add restores the padded length. -/
theorem sepOlaLen_eq (cfg : Config) (tBin : ℕ) (hs : 0 < cfg.sepHopSize)
    (hk : cfg.sepChunkSize ≤ sepPaddedLen cfg tBin) :
    sepOlaLen cfg tBin = sepPaddedLen cfg tBin := by
  unfold sepOlaLen sepNumChunks
  unfold sepPaddedLen sepPad at *
  exact window_resynth_len tBin cfg.sepChunkSize cfg.sepHopSize hs hk

/-- The crop after overlap-add restores exactly the pre-padding length. -/
theorem sepUnpadLen_eq (cfg : Config) (tBin : ℕ) (hs : 0 < cfg.sepHopSize)
    (hk : cfg.sepChunkSize ≤ sepPaddedLen cfg tBin) :
    sepUnpadLen cfg tBin = tBin := by
  unfold sepUnpadLen
  rw [sepOlaLen_eq cfg tBin hs hk]
  unfold sepPaddedLen
  omega

/-- The decoder restores the padded input length from the encoder's frame
count. -/
theorem decLen_numFrames (cfg : Config) (T : ℕ) (hs : 0 < cfg.stride)
    (hk : cfg.kernelSize ≤ encPaddedLen cfg T) :
    decLen cfg (numFrames cfg T) = encPaddedLen cfg T := by
  unfold decLen numFrames
  unfold encPaddedLen encPad at *
  exact window_resynth_len T cfg.kernelSize cfg.stride hs hk

/-- The final crop of `extract_latent` restores the original length. -/
theorem outLen_eq (cfg : Config) (T : ℕ) (hs : 0 < cfg.stride)
    (hk : cfg.kernelSize ≤ encPaddedLen cfg T) :
    outLen cfg T = T := by
  unfold outLen
  rw [decLen_numFrames cfg T hs hk]
  unfold encPaddedLen
  omega

/-- `Separator.forward` succeeds with the contracted mask shape whenever
the chunking geometry is sane (`0 < hop`, `0 < chunk`) and the padded
frame count reaches the chunk size. -/
theorem sepForwardShape_ok (cfg : Config) (B tBin : ℕ)
    (hhop : 0 < cfg.sepHopSize) (hchunk : 0 < cfg.sepChunkSize)
    (hfit : cfg.sepChunkSize ≤ sepPaddedLen cfg tBin) :
    sepForwardShape cfg B cfg.nBases tBin
      = Except.ok (B, cfg.nSources, cfg.nBases, tBin) := by
  unfold sepForwardShape
  rw [if_neg hhop.ne', if_pos rfl, if_neg hchunk.ne',
    if_neg (not_lt.mpr hfit),
    if_pos (by rw [sepUnpadLen_eq cfg tBin hhop hfit]; ring)]

/-- `Separator.forward` can fail, but never with the channel-assert error
of `extract_latent` (that error is raised only at line 84). -/
theorem sepForwardShape_ne_channel (cfg : Config) (B F tBin : ℕ) :
    sepForwardShape cfg B F tBin ≠ Except.error Err.channelMismatch := by
  unfold sepForwardShape
  repeat' split
  all_goals simp

/-- `extract_latent` succeeds on a single-channel input whenever the
encoder window and the separator's chunking geometry fit the (padded)
lengths, and its two outputs have the contracted shapes. -/
theorem extractLatentShape_ok (cfg : Config) (B T : ℕ)
    (hker : 0 < cfg.kernelSize) (hstr : 0 < cfg.stride)
    (hT : cfg.kernelSize ≤ T)
    (hhop : 0 < cfg.sepHopSize) (hchunk : 0 < cfg.sepChunkSize)
    (hfit : cfg.sepChunkSize ≤ sepPaddedLen cfg (numFrames cfg T)) :
    extractLatentShape cfg B 1 T
      = Except.ok ((B, cfg.nSources, T),
          (B, cfg.nSources, cfg.nBases, numFrames cfg T)) := by
  have hkp : cfg.kernelSize ≤ encPaddedLen cfg T := by
    unfold encPaddedLen
    omega
  unfold extractLatentShape
  rw [if_pos rfl, if_neg hstr.ne', if_neg hker.ne', if_neg (not_lt.mpr hkp),
    sepForwardShape_ok cfg B (numFrames cfg T) hhop hchunk hfit,
    outLen_eq cfg T hstr hkp]

/-- C1 (counterexample): the claim "for every input waveform batch of
shape (B, 1, T) with T ≥ kernel_size, DPTNet.forward returns an output of
shape exactly (B, n_sources, T)" is false as stated: for a validly
constructed network (n_bases 12, kernel_size 2, stride 1, chunk 10, hop 5)
and an input with T = 2 ≥ kernel_size, the encoded sequence has one frame,
the separator's inner padding yields a padded length 5 < chunk_size 10,
and the chunking step fails, so the forward pass raises instead of
returning a (1, 2, 2) output. -/
theorem claim1_counterexample :
    dptnetInit 12 2 (some 1) 64 10 (some 5) 4 "relu" 2
        = Except.ok ⟨12, 2, 1, 64, 10, 5, 2, "relu"⟩
      ∧ 2 ≤ 2
      ∧ forwardShape ⟨12, 2, 1, 64, 10, 5, 2, "relu"⟩ 1 1 2
        = Except.error Err.segmentTooShort := by
  refine ⟨rfl, le_refl 2, rfl⟩

/-- C1 (amended): for every input waveform batch of shape (B, 1, T) with
T ≥ kernel_size, provided additionally that the configuration is
non-degenerate (positive kernel, stride, chunk and hop) and the encoded
frame count T' = (T_padded − kernel_size)/stride + 1 after the separator's
inner padding reaches sep_chunk_size, DPTNet.forward returns an output of
shape exactly (B, n_sources, T): the internal padding (left = padding//2,
right = remainder) is removed exactly at the end, so the output time
length equals the input time length. -/
theorem claim1_shape_preservation_amended (cfg : Config) (B T : ℕ)
    (hker : 0 < cfg.kernelSize) (hstr : 0 < cfg.stride)
    (hT : cfg.kernelSize ≤ T)
    (hhop : 0 < cfg.sepHopSize) (hchunk : 0 < cfg.sepChunkSize)
    (hfit : cfg.sepChunkSize ≤ sepPaddedLen cfg (numFrames cfg T)) :
    forwardShape cfg B 1 T = Except.ok (B, cfg.nSources, T) := by
  unfold forwardShape
  rw [extractLatentShape_ok cfg B T hker hstr hT hhop hchunk hfit]
  rfl

/-- C1 (witness): the amended theorem applied to the network of the
in-file test `_test_dptnet` geometry (kernel 8, stride 4, chunk 10,
hop 5, 2 sources) on a (2, 1, 64) input, giving output shape (2, 2, 64). -/
theorem claim1_witness :
    forwardShape ⟨12, 8, 4, 64, 10, 5, 2, "relu"⟩ 2 1 64
      = Except.ok (2, 2, 64) :=
  claim1_shape_preservation_amended ⟨12, 8, 4, 64, 10, 5, 2, "relu"⟩ 2 64
    (by decide) (by decide) (by decide) (by decide) (by decide) (by decide)

/-- C7 (counterexample): the claim "for every input of shape (B, bases,
T'), Separator.forward returns a mask of shape (B, n_sources, bases, T')"
is false as stated: with chunk_size 10 and hop_size 5, an input with
T' = 5 is padded to length 5 < chunk_size (the padding formula only fixes
the length modulo the hop), and the chunking step fails instead of
returning a (1, 2, 10, 5) mask. -/
theorem claim7_counterexample :
    sepForwardShape ⟨10, 8, 4, 64, 10, 5, 2, "relu"⟩ 1 10 5
      = Except.error Err.segmentTooShort := by
  rfl

/-- C7 (amended): for every input of shape (B, bases, T'), provided
additionally that chunk_size and hop_size are positive and T' plus the
inner padding (computed so that (T'_padded − chunk_size) is divisible by
hop_size, split left = padding//2, right = remainder) reaches chunk_size,
Separator.forward returns a mask of shape (B, n_sources, bases, T'): the
padding is removed exactly after overlap-add, restoring the time length
T' before the gated unit is applied. -/
theorem claim7_separator_shape_amended (cfg : Config) (B tBin : ℕ)
    (hhop : 0 < cfg.sepHopSize) (hchunk : 0 < cfg.sepChunkSize)
    (hfit : cfg.sepChunkSize ≤ sepPaddedLen cfg tBin) :
    sepForwardShape cfg B cfg.nBases tBin
      = Except.ok (B, cfg.nSources, cfg.nBases, tBin) :=
  sepForwardShape_ok cfg B tBin hhop hchunk hfit

/-- C7 (witness): the amended theorem at the `_test_separator` geometry
(10 features, chunk 10, hop 5, 3 sources, T' = 64), giving mask shape
(2, 3, 10, 64). -/
theorem claim7_witness :
    sepForwardShape ⟨10, 8, 4, 12, 10, 5, 3, "relu"⟩ 2 10 64
      = Except.ok (2, 3, 10, 64) :=
  claim7_separator_shape_amended ⟨10, 8, 4, 12, 10, 5, 3, "relu"⟩ 2 64
    (by decide) (by decide) (by decide)

/-- C6: for every input whose channel dimension is not 1, extract_latent
(and hence forward) fails immediately with the channel assert of line 84
and produces no output; for inputs of shape (B, 1, T) that check passes —
whatever else happens, the channel-assert error is never raised. -/
theorem claim6_channel_check (cfg : Config) (B C T : ℕ) :
    (C ≠ 1 → extractLatentShape cfg B C T = Except.error Err.channelMismatch)
      ∧ (C = 1 →
          extractLatentShape cfg B C T ≠ Except.error Err.channelMismatch) := by
  constructor
  · intro hC
    unfold extractLatentShape
    rw [if_neg hC]
  · intro hC
    subst hC
    unfold extractLatentShape
    rw [if_pos rfl]
    split
    · simp
    · split
      · simp
      · split
        · simp
        · split
          · next e heq =>
              intro hcontr
              have hne := sepForwardShape_ne_channel cfg B cfg.nBases
                (numFrames cfg T)
              rw [heq] at hne
              have : e = Err.channelMismatch := by
                injection hcontr
              exact hne (by rw [this])
          · simp

/-- C6 (witness): a channel count of 2 is rejected with the channel
assert, and a single-channel input is not. -/
theorem claim6_witness :
    extractLatentShape ⟨12, 8, 4, 64, 10, 5, 2, "relu"⟩ 2 2 64
        = Except.error Err.channelMismatch
      ∧ extractLatentShape ⟨12, 8, 4, 64, 10, 5, 2, "relu"⟩ 2 1 64
        ≠ Except.error Err.channelMismatch :=
  ⟨(claim6_channel_check ⟨12, 8, 4, 64, 10, 5, 2, "relu"⟩ 2 2 64).1
      (by decide),
    (claim6_channel_check ⟨12, 8, 4, 64, 10, 5, 2, "relu"⟩ 2 1 64).2 rfl⟩

/-- C10: DPTNet.forward returns exactly the first component (the output
waveform batch) of DPTNet.extract_latent — lines 65–68 compute
`output, latent = self.extract_latent(input); return output` — so the two
runtime entry points never disagree on the separated waveforms. -/
theorem claim10_forward_extract_latent (cfg : Config) (B C T : ℕ) :
    forwardShape cfg B C T = (extractLatentShape cfg B C T).map Prod.fst :=
  rfl

/-- C5: constructing the network with kernel_size not divisible by stride,
or with n_bases not divisible by sep_num_heads, or with a mask_nonlinear
name outside {relu, sigmoid, softmax}, fails at construction time (the
asserts of lines 25–26 and the ValueError of Separator.__init__ line 137
all run inside __init__, never at call time); construction with valid
values of all three options succeeds. -/
theorem claim5_construction_validation (nBases kernel stride sepB chunk hop
    heads : ℕ) (mask : String) (nS : ℕ) :
    (kernel % stride ≠ 0 →
        (dptnetInit nBases kernel (some stride) sepB chunk (some hop) heads
          mask nS).isOk = false)
      ∧ (nBases % heads ≠ 0 →
        (dptnetInit nBases kernel (some stride) sepB chunk (some hop) heads
          mask nS).isOk = false)
      ∧ (¬(mask = "relu" ∨ mask = "sigmoid" ∨ mask = "softmax") →
        (dptnetInit nBases kernel (some stride) sepB chunk (some hop) heads
          mask nS).isOk = false)
      ∧ (0 < stride → kernel % stride = 0 → 0 < heads → nBases % heads = 0 →
        (mask = "relu" ∨ mask = "sigmoid" ∨ mask = "softmax") →
        (dptnetInit nBases kernel (some stride) sepB chunk (some hop) heads
          mask nS).isOk = true) := by
  simp only [dptnetInit, Option.getD_some]
  refine ⟨?_, ?_, ?_, ?_⟩
  · intro h
    by_cases hs : stride = 0
    · rw [if_pos hs]
      rfl
    · rw [if_neg hs, if_pos h]
      rfl
  · intro h
    by_cases hs : stride = 0
    · rw [if_pos hs]
      rfl
    · rw [if_neg hs]
      by_cases hks : kernel % stride ≠ 0
      · rw [if_pos hks]
        rfl
      · rw [if_neg hks]
        by_cases hh : heads = 0
        · rw [if_pos hh]
          rfl
        · rw [if_neg hh, if_pos h]
          rfl
  · intro h
    by_cases hs : stride = 0
    · rw [if_pos hs]
      rfl
    · rw [if_neg hs]
      by_cases hks : kernel % stride ≠ 0
      · rw [if_pos hks]
        rfl
      · rw [if_neg hks]
        by_cases hh : heads = 0
        · rw [if_pos hh]
          rfl
        · rw [if_neg hh]
          by_cases hbh : nBases % heads ≠ 0
          · rw [if_pos hbh]
            rfl
          · rw [if_neg hbh, if_neg h]
            rfl
  · intro hs hks hh hbh hm
    rw [if_neg hs.ne', if_neg (by simpa using hks), if_neg hh.ne',
      if_neg (by simpa using hbh), if_pos hm]
    rfl

/-- C5 (witness): kernel_size 9 with stride 4 fails, n_bases 10 with 3
heads fails, mask "tanh" fails, and the valid combination (8, 4, 12, 4,
"relu") succeeds. -/
theorem claim5_witness :
    (dptnetInit 12 9 (some 4) 64 10 (some 5) 4 "relu" 2).isOk = false
      ∧ (dptnetInit 10 8 (some 4) 64 10 (some 5) 3 "relu" 2).isOk = false
      ∧ (dptnetInit 12 8 (some 4) 64 10 (some 5) 4 "tanh" 2).isOk = false
      ∧ (dptnetInit 12 8 (some 4) 64 10 (some 5) 4 "relu" 2).isOk = true :=
  ⟨(claim5_construction_validation 12 9 4 64 10 5 4 "relu" 2).1 (by decide),
    ((claim5_construction_validation 10 8 4 64 10 5 3 "relu" 2).2).1
      (by decide),
    (((claim5_construction_validation 12 8 4 64 10 5 4 "tanh" 2).2).2).1
      (by decide),
    (((claim5_construction_validation 12 8 4 64 10 5 4 "relu" 2).2).2).2
      (by decide) (by decide) (by decide) (by decide) (Or.inl rfl)⟩

/-- C9: when the stride argument is omitted (None) at construction, the
stored stride defaults to kernel_size // 2 (lines 19–20). -/
theorem claim9_stride_default (nBases kernel sepB chunk : ℕ)
    (hop? : Option ℕ) (heads : ℕ) (mask : String) (nS : ℕ) (m : Config)
    (h : dptnetInit nBases kernel none sepB chunk hop? heads mask nS
        = Except.ok m) :
    m.stride = kernel / 2 := by
  unfold dptnetInit at h
  simp only [Option.getD_none] at h
  repeat' split at h
  all_goals injection h
  all_goals rename_i h'
  all_goals rw [← h']

/-- C9 (witness): constructing with kernel_size 8 and no stride stores
stride 4 = 8 // 2. -/
theorem claim9_witness :
    (⟨12, 8, 4, 64, 10, 5, 2, "relu"⟩ : Config).stride = 4 :=
  claim9_stride_default 12 8 64 10 none 4 "relu" 2
    ⟨12, 8, 4, 64, 10, 5, 2, "relu"⟩ rfl

/-- Structural embedding of `Separator.forward` (lines 154–162) over an
abstract tensor type `α`: each learned submodule constructed in
`Separator.__init__` (lines 122–128) is passed as a function — in
particular the normalization module `norm2d` selected at line 124 via the
external `choose_layer_norm`.  The body composes, in source order, the
bottleneck convolution (line 154), the pad (line 155), `segment1d`
(line 156), `dptransformer` (line 157), `overlap_add1d` (line 158), the
cropping pad (line 159), `gtu` (line 160), the mask nonlinearity
(line 161) and the final view (line 162).  As in the source, `norm2d`
does not occur in the body. -/
def sepForwardPipeline {α : Type} (bottleneck_conv1d segment1d
    dptransformer overlap_add1d gtu maskNonlinear norm2d pad crop
    view : α → α) (input : α) : α :=
  view (maskNonlinear (gtu (crop (overlap_add1d (dptransformer
    (segment1d (pad (bottleneck_conv1d input))))))))

/-- C3: the claim that the normalization module is applied to the chunked
tensor between the chunking step and the Dual-Path Transformer Stack —
so that the separator's output depends on it — is refuted by the code:
`Separator.forward` never invokes `self.norm2d`, hence its result is the
same for any two normalization modules whatsoever (and for every choice
of the other submodules and every input). -/
theorem claim3_norm_unused {α : Type} (bottleneck_conv1d segment1d
    dptransformer overlap_add1d gtu maskNonlinear norm2dA norm2dB pad crop
    view : α → α) (input : α) :
    sepForwardPipeline bottleneck_conv1d segment1d dptransformer
        overlap_add1d gtu maskNonlinear norm2dA pad crop view input
      = sepForwardPipeline bottleneck_conv1d segment1d dptransformer
        overlap_add1d gtu maskNonlinear norm2dB pad crop view input :=
  rfl

/-- A parameter tensor of a module: its shape, its trainability flag, and
its entries.  Modelled from the spec (§3): the learned parameters are
owned by the modules and initialized once at construction; their shapes
are determined by the configuration, their entries by the (external,
possibly random) initialization. -/
structure Param where
  shape : List ℕ
  requiresGrad : Bool
  entries : ℕ → ℚ

/-- `p.numel()`: the number of elements of a parameter tensor. -/
def Param.numel (p : Param) : ℕ := p.shape.prod

/-- Construction of the model's parameter list.  Modelled from the spec
(§4.5, §3): every owned module (encoder, bottleneck projection,
normalization, attention/feed-forward weights, gated-unit weights,
decoder) contributes parameter tensors whose shapes and trainability are
a function of the configuration alone — `shapes` stands for that
config-determined list — while the initializer `init` fills the entries
(entry `j` of parameter `i` is `init i j`). -/
def constructParams (shapes : List (List ℕ × Bool)) (init : ℕ → ℕ → ℚ) :
    List Param :=
  (List.range shapes.length).map (fun i =>
    ⟨(shapes.getD i ([], false)).1, (shapes.getD i ([], false)).2, init i⟩)

/-- `DPTNet._get_num_parameters` (lines 103–110): fold over all
parameters, adding `p.numel()` for each parameter with `requires_grad`. -/
def getNumParameters (ps : List Param) : ℕ :=
  ps.foldl (fun acc p => if p.requiresGrad then acc + p.numel else acc) 0

theorem numParameters_foldl_congr {β : Type} (f g : β → Param)
    (hshape : ∀ x, (f x).shape = (g x).shape)
    (hgrad : ∀ x, (f x).requiresGrad = (g x).requiresGrad) :
    ∀ (l : List β) (acc : ℕ),
      (l.map f).foldl (fun a p => if p.requiresGrad then a + p.numel else a)
          acc
        = (l.map g).foldl (fun a p => if p.requiresGrad then a + p.numel
          else a) acc := by
  intro l
  induction l with
  | nil =>
      intro acc
      rfl
  | cons x xs ih =>
      intro acc
      simp only [List.map_cons, List.foldl_cons]
      have hstep : (if (f x).requiresGrad then acc + (f x).numel else acc)
          = (if (g x).requiresGrad then acc + (g x).numel else acc) := by
        rw [hgrad x]
        unfold Param.numel
        rw [hshape x]
      rw [hstep]
      exact ih _

/-- C8: constructing two networks with identical configuration arguments
yields identical cached parameter counts: the count computed by
`_get_num_parameters` (the sum of the element counts of all trainable
parameters across every owned module, cached at line 63) depends only on
the configuration-determined shape list, never on the initialization of
the parameter entries. -/
theorem claim8_param_count_deterministic (shapes : List (List ℕ × Bool))
    (initA initB : ℕ → ℕ → ℚ) :
    getNumParameters (constructParams shapes initA)
      = getNumParameters (constructParams shapes initB) := by
  unfold getNumParameters constructParams
  exact numParameters_foldl_congr
    (fun i => ⟨(shapes.getD i ([], false)).1, (shapes.getD i ([], false)).2,
      initA i⟩)
    (fun i => ⟨(shapes.getD i ([], false)).1, (shapes.getD i ([], false)).2,
      initB i⟩)
    (fun _ => rfl) (fun _ => rfl) (List.range shapes.length) 0

/-- The chunking operation on one (batch, channel) time series.  Modelled
from the spec (§4.1): `Segment1d` is not among the analysed sources;
chunk `i`, for `i < num_chunks = (T − K)/H + 1`, is the contiguous slice
of length `K` starting at offset `i·H`.  Out-of-range reads (which occur
only outside the contract `K ≤ T`) give 0. -/
def chunk1 (K H : ℕ) (x : List ℚ) : List (List ℚ) :=
  (List.range ((x.length - K) / H + 1)).map (fun i =>
    (List.range K).map (fun j => x.getD (i * H + j) 0))

/-- The set of chunk indices whose window covers output position `t`. -/
def covering (K H S t : ℕ) : Finset ℕ :=
  (Finset.range S).filter (fun i => i * H ≤ t ∧ t < i * H + K)

/-- The overlap-add operation on one (batch, channel) series of chunks.
Modelled from the spec (§4.1): `OverlapAdd1d` is not among the analysed
sources; the output has length `(num_chunks − 1)·H + K`, and each output
position accumulates the contributions of every chunk covering it
(summed), divided by the count of contributing chunks. -/
def overlapAdd1 (K H : ℕ) (cs : List (List ℚ)) : List ℚ :=
  (List.range ((cs.length - 1) * H + K)).map (fun t =>
    (∑ i ∈ covering K H cs.length t, (cs.getD i []).getD (t - i * H) 0)
      / ((covering K H cs.length t).card : ℚ))

/-- C4 (counterexample): the claim "OverlapAdd(Chunk(x)) equals x for
every x whose time length satisfies the divisibility precondition" is
false as stated, in two ways the precondition alone does not exclude:
with hop_size 2 > chunk_size 1 (T = 3, (3−1) % 2 = 0) position 1 is
covered by no chunk, and with chunk_size 10 > T = 5 (hop 5, (5−10)
truncating to 0, divisible) the reassembled length is 10 ≠ 5. -/
theorem claim4_counterexample :
    ((3 - 1) % 2 = 0
        ∧ overlapAdd1 1 2 (chunk1 1 2 [1, 1, 1]) ≠ [1, 1, 1])
      ∧ overlapAdd1 10 5 (chunk1 10 5 [1, 1, 1, 1, 1]) ≠ [1, 1, 1, 1, 1] := by
  refine ⟨⟨rfl, ?_⟩, ?_⟩
  · intro h
    have hS : (chunk1 1 2 [1, 1, 1]).length = 2 := by
      simp [chunk1]
    have hco : covering 1 2 2 1 = ∅ := by decide
    have h1 : (overlapAdd1 1 2 (chunk1 1 2 [1, 1, 1])).getD 1 0 = 0 := by
      unfold overlapAdd1
      rw [hS]
      have hlt : (1 : ℕ) < ((List.range ((2 - 1) * 2 + 1)).map (fun t =>
          (∑ i ∈ covering 1 2 2 t,
              ((chunk1 1 2 [1, 1, 1]).getD i []).getD (t - i * 2) 0)
            / ((covering 1 2 2 t).card : ℚ))).length := by
        simp
      rw [List.getD_eq_getElem _ _ hlt]
      simp only [List.getElem_map, List.getElem_range]
      rw [hco]
      simp
    have h2 := congrArg (fun l : List ℚ => l.getD 1 0) h
    simp only at h2
    rw [h1] at h2
    have h3 : ([1, 1, 1] : List ℚ).getD 1 0 = 1 := rfl
    rw [h3] at h2
    exact absurd h2 (by norm_num)
  · intro h
    have := congrArg List.length h
    simp [overlapAdd1, chunk1] at this

/-- C4 (amended): Overlap-Add is the exact inverse of Chunk on its
intended domain: for every series x and every chunk/hop geometry with
0 < hop_size ≤ chunk_size ≤ T (so that every position is covered by at
least one chunk and the chunks lie inside the series) and
(T − chunk_size) divisible by hop_size, `OverlapAdd(Chunk(x)) = x`
element-wise. -/
theorem claim4_overlap_add_inverse_amended (K H : ℕ) (x : List ℚ)
    (hH : 0 < H) (hHK : H ≤ K) (hKT : K ≤ x.length)
    (hmod : (x.length - K) % H = 0) :
    overlapAdd1 K H (chunk1 K H x) = x := by
  have hdvd : H ∣ (x.length - K) := Nat.dvd_of_mod_eq_zero hmod
  have hSlen : (chunk1 K H x).length = (x.length - K) / H + 1 := by
    simp [chunk1]
  have hT : ((chunk1 K H x).length - 1) * H + K = x.length := by
    rw [hSlen]
    simp only [Nat.add_sub_cancel]
    rw [Nat.div_mul_cancel hdvd]
    omega
  apply List.ext_getElem
  · simp only [overlapAdd1, List.length_map, List.length_range]
    exact hT
  · intro t h1 h2
    have ht : t < x.length := h2
    have hget : (overlapAdd1 K H (chunk1 K H x))[t]
        = (∑ i ∈ covering K H (chunk1 K H x).length t,
              ((chunk1 K H x).getD i []).getD (t - i * H) 0)
            / ((covering K H (chunk1 K H x).length t).card : ℚ) := by
      simp [overlapAdd1]
    rw [hget]
    have hval : ∀ i ∈ covering K H (chunk1 K H x).length t,
        ((chunk1 K H x).getD i []).getD (t - i * H) 0 = x[t] := by
      intro i hi
      simp only [covering, Finset.mem_filter, Finset.mem_range,
        decide_eq_true_eq] at hi
      obtain ⟨hiS, hle, hlt⟩ := hi
      have hiS' : i < ((List.range ((x.length - K) / H + 1)).map (fun i =>
          (List.range K).map (fun j => x.getD (i * H + j) 0))).length := by
        simpa using hSlen ▸ hiS
      have hchunk : (chunk1 K H x).getD i []
          = (List.range K).map (fun j => x.getD (i * H + j) 0) := by
        unfold chunk1
        rw [List.getD_eq_getElem _ _ hiS']
        simp
      rw [hchunk]
      have htK : t - i * H < K := by omega
      have htK' : t - i * H < ((List.range K).map (fun j =>
          x.getD (i * H + j) 0)).length := by simpa using htK
      rw [List.getD_eq_getElem _ _ htK']
      simp only [List.getElem_map, List.getElem_range]
      have hidx : i * H + (t - i * H) = t := by omega
      rw [hidx, List.getD_eq_getElem _ _ ht]
    rw [Finset.sum_congr rfl hval, Finset.sum_const, nsmul_eq_mul]
    have hmem : ∃ i, i ∈ covering K H (chunk1 K H x).length t := by
      by_cases hcase : t / H < (chunk1 K H x).length
      · refine ⟨t / H, ?_⟩
        simp only [covering, Finset.mem_filter, Finset.mem_range,
          decide_eq_true_eq]
        refine ⟨hcase, Nat.div_mul_le_self t H, ?_⟩
        have hm := Nat.mod_lt t hH
        have hdm := Nat.div_add_mod t H
        rw [Nat.mul_comm (t / H) H]
        omega
      · refine ⟨(chunk1 K H x).length - 1, ?_⟩
        simp only [covering, Finset.mem_filter, Finset.mem_range,
          decide_eq_true_eq]
        have hS1 : 1 ≤ (chunk1 K H x).length := by
          rw [hSlen]
          exact Nat.le_add_left 1 _
        have hge : (chunk1 K H x).length ≤ t / H := le_of_not_lt hcase
        have hmul : (chunk1 K H x).length * H ≤ t :=
          (Nat.le_div_iff_mul_le hH).mp hge
        have hle1 : ((chunk1 K H x).length - 1) * H
            ≤ (chunk1 K H x).length * H :=
          Nat.mul_le_mul_right H (Nat.sub_le _ _)
        exact ⟨by omega, le_trans hle1 hmul, by omega⟩
    obtain ⟨i0, hi0⟩ := hmem
    have hcard : ((covering K H (chunk1 K H x).length t).card : ℚ) ≠ 0 := by
      exact_mod_cast Finset.card_ne_zero_of_mem hi0
    rw [mul_div_cancel_left₀ _ hcard]

/-- C4 (witness): the amended inverse law at chunk_size 2, hop_size 1 on
the series [1, 2, 3]. -/
theorem claim4_witness :
    overlapAdd1 2 1 (chunk1 2 1 [1, 2, 3]) = [1, 2, 3] :=
  claim4_overlap_add_inverse_amended 2 1 [1, 2, 3] (by decide) (by decide)
    (by decide) (by decide)

/-- The flattened channel index of source `s`, basis `f` under the final
reshape `x.view(batch_size, n_sources, num_features, T_bin)` (line 162):
channel `s·F + f` of the (B, n_sources·num_features, T_bin) tensor. -/
def channelIdx {nS F : ℕ} (s : Fin nS) (f : Fin F) : Fin (nS * F) :=
  ⟨s.1 * F + f.1, by
    have hf := f.isLt
    have hs := s.isLt
    calc s.1 * F + f.1 < s.1 * F + F := by omega
      _ = (s.1 + 1) * F := by ring
      _ ≤ nS * F := Nat.mul_le_mul_right F hs⟩

/-- `nn.Softmax(dim=1)` as selected at line 135: applied to a tensor of
shape (B, C, T), it normalizes with `exp` over the whole channel axis,
separately for each (batch, time) position. -/
noncomputable def softmaxDim1 (B C T : ℕ) (y : Fin B → Fin C → Fin T → ℝ)
    (b : Fin B) (c : Fin C) (t : Fin T) : ℝ :=
  Real.exp (y b c t) / ∑ j, Real.exp (y b j t)

/-- The mask produced by lines 161–162 of `Separator.forward` under
`mask_nonlinear='softmax'`: the softmax is applied to the gated-unit
output `y` of shape (B, n_sources·num_features, T_bin) BEFORE the view,
so it normalizes over the combined source/feature channel axis; the view
then addresses channel `s·F + f` as (source s, basis f). -/
noncomputable def softmaxMask (B nS F T : ℕ)
    (y : Fin B → Fin (nS * F) → Fin T → ℝ)
    (b : Fin B) (s : Fin nS) (f : Fin F) (t : Fin T) : ℝ :=
  softmaxDim1 B (nS * F) T y b (channelIdx s f) t

/-- C2 (counterexample): the claim that with mask_nonlinear='softmax' the
mask values summed across the source axis equal 1 at every (batch, basis,
frame) position is false: with 2 sources, 2 bases and an all-zero
pre-mask tensor, the softmax (applied over the combined 4-channel axis,
line 135 + line 161) gives 1/4 everywhere, so the sum across the two
sources at basis 0 is 1/2, not 1. -/
theorem claim2_counterexample :
    (∑ s : Fin 2, softmaxMask 1 2 2 1 (fun _ _ _ => 0) 0 s 0 0) ≠ 1 := by
  have hval : ∀ s : Fin 2, softmaxMask 1 2 2 1 (fun _ _ _ => 0) 0 s 0 0
      = 1 / 4 := by
    intro s
    unfold softmaxMask softmaxDim1
    simp only [Real.exp_zero]
    rw [Finset.sum_const, Finset.card_univ, Fintype.card_fin]
    norm_num
  rw [Fin.sum_univ_two, hval 0, hval 1]
  norm_num

/-- C2 (amended): with mask_nonlinear='softmax' the normalization is over
the combined source-and-basis channel axis: for every (batch, frame)
position, the mask values summed over ALL (source, basis) pairs equal 1
(the per-basis sums across sources alone are generally smaller). -/
theorem claim2_softmax_mask_sums_amended (B nS F T : ℕ)
    (hnS : 0 < nS) (hF : 0 < F)
    (y : Fin B → Fin (nS * F) → Fin T → ℝ) (b : Fin B) (t : Fin T) :
    (∑ s : Fin nS, ∑ f : Fin F, softmaxMask B nS F T y b s f t) = 1 := by
  have hpos : 0 < nS * F := Nat.mul_pos hnS hF
  haveI : Nonempty (Fin (nS * F)) := ⟨⟨0, hpos⟩⟩
  have hsum : (∑ c : Fin (nS * F), softmaxDim1 B (nS * F) T y b c t)
      = ∑ s : Fin nS, ∑ f : Fin F, softmaxMask B nS F T y b s f t := by
    rw [← Equiv.sum_comp (finProdFinEquiv : Fin nS × Fin F ≃ Fin (nS * F))
      (fun c => softmaxDim1 B (nS * F) T y b c t)]
    rw [Fintype.sum_prod_type]
    apply Finset.sum_congr rfl
    intro s _
    apply Finset.sum_congr rfl
    intro f _
    have hidx : (finProdFinEquiv (s, f) : Fin (nS * F)) = channelIdx s f := by
      apply Fin.ext
      show f.1 + F * s.1 = s.1 * F + f.1
      ring
    show softmaxDim1 B (nS * F) T y b (finProdFinEquiv (s, f)) t
      = softmaxMask B nS F T y b s f t
    rw [hidx]
    rfl
  rw [← hsum]
  unfold softmaxDim1
  rw [← Finset.sum_div]
  have hden : 0 < ∑ j : Fin (nS * F), Real.exp (y b j t) :=
    Finset.sum_pos (fun j _ => Real.exp_pos _) Finset.univ_nonempty
  exact div_self hden.ne'

/-- C2 (witness): the amended theorem at one source, one basis, one frame
with zero pre-mask input: the total mask sum is 1. -/
theorem claim2_witness :
    (0 : ℕ) < 1
      ∧ (∑ s : Fin 1, ∑ f : Fin 1,
          softmaxMask 1 1 1 1 (fun _ _ _ => 0) 0 s f 0) = 1 :=
  ⟨Nat.zero_lt_one,
    claim2_softmax_mask_sums_amended 1 1 1 1 Nat.zero_lt_one Nat.zero_lt_one
      (fun _ _ _ => 0) 0 0⟩

end DPTNet
